import Mathlib

/-
Verification of the rsliding library (Python facade + window engine).
The Python facade layer (utils.py, padding.py, convolution.py, sliding_mean.py,
sliding_median.py, sliding_standard_deviation.py, sliding_sigma_clipping.py,
the package entry points) is embedded directly from the source.  The numeric
core lives in a compiled extension whose source is not part of the repository;
its operations are modelled from the specification (padder 4.1, window walker
4.2, reducers 4.3, driver 4.4) and each such definition says so in its doc
comment.  Floating-point values are modelled as `Option Rat`: `none` is IEEE
NaN, `some q` a finite value; every number appearing in the claims is exactly
representable, and the reducers only ever do exact field arithmetic on the
non-NaN samples they keep.
-/

namespace RSliding

/-- A 64-bit float value: `none` models NaN, `some q` a finite value. -/
abbrev Val := Option ℚ

/-- Border policy passed to the core (the `pad_mode` string of the source);
`borders = None` of the Python layer is an `Option PadMode` around this. -/
inductive PadMode
  | constant
  | reflect
  | replicate
deriving DecidableEq, Repr

/-- Error kinds of the library.  The source raises ValueError for kernel-shape
problems and for the sigma-clipping configuration check, TypeError for a kernel
of the wrong type; the spec groups threads validation under ConfigError.  The
constructors keep the grounds distinct. -/
inductive Err
  | shapeError
  | typeError
  | sigmaConfigError
  | threadsConfigError
deriving DecidableEq, Repr

/-- A dense row-major N-D array of float values (spec section 3: element at
multi-index i sits at linear offset sum of i_k times the trailing products). -/
structure NDGrid where
  shape : List ℕ
  vals : List Val
deriving DecidableEq, Repr

/-- A dense N-D kernel: shape plus row-major weights. -/
structure Kern where
  shape : List ℕ
  weights : List ℚ
deriving DecidableEq, Repr

/-- Row-major enumeration of all multi-indices of a shape. -/
def coordsOf : List ℕ → List (List ℕ)
  | [] => [[]]
  | s :: rest =>
    let cs := coordsOf rest
    (List.range s).flatMap fun i => cs.map fun c => i :: c

/-- Linear offset of a multi-index in a row-major layout. -/
def flatIdx : List ℕ → List ℕ → ℕ
  | _ :: rest, i :: is => i * rest.prod + flatIdx rest is
  | _, _ => 0

/-- Element of the grid at an in-bounds multi-index. -/
def NDGrid.get (g : NDGrid) (c : List ℕ) : Val :=
  g.vals.getD (flatIdx g.shape c) none

/-- Whether a signed multi-index is inside the shape. -/
def inBounds (shape : List ℕ) (c : List ℤ) : Bool :=
  shape.length == c.length &&
    (List.zip shape c).all fun p => decide (0 ≤ p.2) && decide (p.2 < (p.1 : ℤ))

/-- Reflect-101 index folding (spec 4.1: index -d maps to d, symmetric at the
high side, repeated mirroring modulo 2*(s-1) when the kernel overhangs). -/
def reflectIdx (s : ℕ) (i : ℤ) : ℕ :=
  if s ≤ 1 then 0
  else
    let m : ℤ := 2 * ((s : ℤ) - 1)
    let r : ℤ := i % m
    if r < (s : ℤ) then r.toNat else (m - r).toNat

/-- Clamp-to-edge index folding for the replicate policy. -/
def clampIdx (s : ℕ) (i : ℤ) : ℕ :=
  if i < 0 then 0 else min i.toNat (s - 1)

/-- Modelled from the spec (4.1 Padder / 3 Border policy): read the data at a
possibly out-of-bounds signed multi-index under the border policy.  The
compiled core materialises a padded copy; reading through the policy is the
same function of the inputs. -/
def readAt (g : NDGrid) (mode : PadMode) (pv : Val) (c : List ℤ) : Val :=
  match mode with
  | .constant => if inBounds g.shape c then g.get (c.map Int.toNat) else pv
  | .reflect => g.get ((List.zip g.shape c).map fun p => reflectIdx p.1 p.2)
  | .replicate => g.get ((List.zip g.shape c).map fun p => clampIdx p.1 p.2)

/-- Half-widths p_a = (k_a - 1) / 2 of a kernel (k_a odd). -/
def halfWidths (K : Kern) : List ℕ := K.shape.map fun k => k / 2

/-- Signed data coordinate aligned under kernel offset j at output coordinate
o: componentwise o + j - p. -/
def offsetCoord : List ℕ → List ℕ → List ℕ → List ℤ
  | o :: os, j :: js, p :: ps => ((o : ℤ) + (j : ℤ) - (p : ℤ)) :: offsetCoord os js ps
  | _, _, _ => []

/-- Modelled from the spec (4.2 Window walker): the row-major stream of
(sample, weight) pairs contributing at output coordinate o. -/
def windowPairs (g : NDGrid) (K : Kern) (mode : PadMode) (pv : Val) (o : List ℕ) :
    List (Val × ℚ) :=
  (coordsOf K.shape).map fun j =>
    (readAt g mode pv (offsetCoord o j (halfWidths K)),
     K.weights.getD (flatIdx K.shape j) 0)

/-- Effective weight of a window: sum of kernel weights at the positions whose
aligned sample is not NaN (spec section 3 invariants, glossary). -/
def effWeight (pairs : List (Val × ℚ)) : ℚ :=
  (pairs.filterMap fun p =>
    match p.1 with
    | some _ => some p.2
    | none => none).sum

/-- The samples a reducer actually consumes: non-NaN value with non-zero
weight (the walker skips zero-weight pairs, the reducers skip NaN). -/
def validPairs (pairs : List (Val × ℚ)) : List (ℚ × ℚ) :=
  pairs.filterMap fun p =>
    match p.1 with
    | some x => if p.2 = 0 then none else some (x, p.2)
    | none => none

/-- One step of Neumaier compensated summation on the (sum, compensation)
state (spec 4.3.2). -/
def neumaierStep (sc : ℚ × ℚ) (y : ℚ) : ℚ × ℚ :=
  let t := sc.1 + y
  if |y| ≤ |sc.1| then (t, sc.2 + ((sc.1 - t) + y)) else (t, sc.2 + ((y - t) + sc.1))

/-- Neumaier compensated sum of a list (exact over the rationals, where the
compensation term stays zero). -/
def neumaierSum (l : List ℚ) : ℚ :=
  let sc := l.foldl neumaierStep (0, 0)
  sc.1 + sc.2

/-- Summation selected by the neumaier flag of the mean / std operations. -/
def sumF (neumaier : Bool) (l : List ℚ) : ℚ :=
  if neumaier then neumaierSum l else l.sum

/-- Modelled from the spec (4.3.1): weighted-sum (convolution) reducer.  Sum of
w * x over the non-NaN contributing samples; NaN when every contributing
sample is NaN. -/
def convReduce (pairs : List (Val × ℚ)) : Val :=
  let v := validPairs pairs
  if v.isEmpty then none else some (v.map fun p => p.2 * p.1).sum

/-- Modelled from the spec (4.3.2 and section 3 invariants): weighted-mean
reducer; NaN exactly when the effective weight is zero. -/
def meanReduce (neumaier : Bool) (pairs : List (Val × ℚ)) : Val :=
  let v := validPairs pairs
  let W := sumF neumaier (v.map fun p => p.2)
  if W = 0 then none
  else some (sumF neumaier (v.map fun p => p.2 * p.1) / W)

/-- Modelled from the spec (4.3.3): two-pass weighted population standard
deviation, returned as (sigma, mean).  The sigma slot carries the variance
sigma^2 rather than its irrational square root; since the square root is
strictly monotone on the nonnegative rationals and IEEE sqrt of a negative
number is NaN, the slot is NaN exactly when the standard deviation is, and
determines it uniquely otherwise. -/
def stdReduce (neumaier : Bool) (pairs : List (Val × ℚ)) : Val × Val :=
  let v := validPairs pairs
  let W := sumF neumaier (v.map fun p => p.2)
  if W = 0 then (none, none)
  else
    let mu := sumF neumaier (v.map fun p => p.2 * p.1) / W
    let s2 := sumF neumaier (v.map fun p => p.2 * (p.1 - mu) * (p.1 - mu)) / W
    (if s2 < 0 then none else some s2, some mu)

/-- Stable insertion into a list sorted ascending by the sample value: the new
pair goes before the first element that is not strictly smaller, so walker
order is preserved among ties (spec 4.3.4 step 3). -/
def insertSorted (p : ℚ × ℚ) : List (ℚ × ℚ) → List (ℚ × ℚ)
  | [] => [p]
  | q :: rest => if q.1 < p.1 then q :: insertSorted p rest else p :: q :: rest

/-- Scan of the cumulative weight over the sorted pairs (spec 4.3.4 steps 4-6):
stop at the first pair where the cumulative weight reaches W/2; on an exact hit
average with the next sample, otherwise return the sample itself.  With
all-ones weights this is the usual odd/even-count median. -/
def medianPick (acc W : ℚ) : List (ℚ × ℚ) → Val
  | [] => none
  | (x, w) :: rest =>
    if W / 2 ≤ acc + w then
      if acc + w = W / 2 then
        match rest with
        | [] => some x
        | (y, _) :: _ => some ((x + y) / 2)
      else some x
    else medianPick (acc + w) W rest

/-- Modelled from the spec (4.3.4): NaN-aware weighted median reducer. -/
def medianReduce (pairs : List (Val × ℚ)) : Val :=
  let s := (validPairs pairs).foldr insertSorted []
  medianPick 0 (s.map fun p => p.2).sum s

/-- Which location statistic plays the role of the centre in sigma-clipping
(the center_choice argument of the facade). -/
inductive CenterChoice
  | mean
  | median
deriving DecidableEq, Repr

/-- Weighted mean of a kept-sample list (plain summation; the clipping core
takes no neumaier flag). -/
def wMeanVal (v : List (ℚ × ℚ)) : Val :=
  let W := (v.map fun p => p.2).sum
  if W = 0 then none else some ((v.map fun p => p.2 * p.1).sum / W)

/-- Weighted median of a kept-sample list. -/
def wMedianVal (v : List (ℚ × ℚ)) : Val :=
  let s := v.foldr insertSorted []
  medianPick 0 (s.map fun p => p.2).sum s

/-- Weighted population variance of a kept-sample list (NaN when the weight
sum is zero). -/
def wVarVal (v : List (ℚ × ℚ)) : Val :=
  match wMeanVal v with
  | none => none
  | some mu =>
    let W := (v.map fun p => p.2).sum
    some ((v.map fun p => p.2 * (p.1 - mu) * (p.1 - mu)).sum / W)

/-- Centre statistic of the kept set per the center choice. -/
def centerOf : CenterChoice → List (ℚ × ℚ) → Val
  | .mean, v => wMeanVal v
  | .median, v => wMedianVal v

/-- Decides a < l * sqrt s for rationals a l and a nonnegative rational s,
by sign analysis and squaring (sqrt itself is irrational in general). -/
def ratLtMulSqrt (a l s : ℚ) : Bool :=
  if 0 ≤ l then decide (a < 0) || decide (a * a < l * l * s)
  else decide (a < 0) && decide (l * l * s < a * a)

/-- Lower clipping test of one sample: x < mu - sigma_lower * sigma, with
sigma the square root of the variance s2; no lower bound means no lower
clipping (spec 4.3.5 step 3). -/
def lowerClipped (lo : Option ℚ) (mu s2 x : ℚ) : Bool :=
  match lo with
  | some l => ratLtMulSqrt (x - mu) (-l) s2
  | none => false

/-- Upper clipping test of one sample: x > mu + sigma_upper * sigma; no upper
bound means no upper clipping. -/
def upperClipped (hi : Option ℚ) (mu s2 x : ℚ) : Bool :=
  match hi with
  | some u => ratLtMulSqrt (mu - x) (-u) s2
  | none => false

/-- A kept sample is marked clipped when either side test fires. -/
def isClipped (lo hi : Option ℚ) (mu s2 x : ℚ) : Bool :=
  lowerClipped lo mu s2 x || upperClipped hi mu s2 x

/-- Per-window sigma-clipping configuration. -/
structure ClipParams where
  center : CenterChoice
  sigmaLower : Option ℚ
  sigmaUpper : Option ℚ
deriving DecidableEq, Repr

/-- Modelled from the spec (4.3.5): the iterative clipping fixpoint.  State is
the kept set plus the values removed so far; each step recomputes centre and
scale, removes newly clipped samples, and stops on convergence, on exhausted
fuel (max_iters), or when fewer than two samples remain.  Returns the final
centre and the removed values. -/
def clipIter (P : ClipParams) : ℕ → List (ℚ × ℚ) → List ℚ → Val × List ℚ
  | 0, kept, removed => (centerOf P.center kept, removed)
  | fuel + 1, kept, removed =>
    if kept.length < 2 then (centerOf P.center kept, removed)
    else
      match centerOf P.center kept, wVarVal kept with
      | some mu, some s2 =>
        let hit := kept.filter fun p => isClipped P.sigmaLower P.sigmaUpper mu s2 p.1
        if hit.isEmpty then (some mu, removed)
        else
          clipIter P fuel
            (kept.filter fun p => ! isClipped P.sigmaLower P.sigmaUpper mu s2 p.1)
            (removed ++ hit.map fun p => p.1)
      | _, _ => (centerOf P.center kept, removed)

/-- Iteration budget: max_iters when given; otherwise one more than the kept
count, which suffices because every non-converged step removes a sample. -/
def clipFuel (maxIters : Option ℕ) (kept : List (ℚ × ℚ)) : ℕ :=
  match maxIters with
  | some m => m
  | none => kept.length + 1

/-- Modelled from the spec (4.3.5): per-window sigma-clipping output, the
final centre value and the mask bit, which is set when the window's own centre
sample was NaN to begin with or was among the clipped. -/
def clipReduce (P : ClipParams) (maxIters : Option ℕ) (pairs : List (Val × ℚ))
    (centreSample : Val) : Val × Bool :=
  let kept := validPairs pairs
  let r := clipIter P (clipFuel maxIters kept) kept []
  (r.1,
   match centreSample with
   | none => true
   | some c => decide (c ∈ r.2))

/-- Convolution output at one cell. -/
def convAt (g : NDGrid) (K : Kern) (mode : PadMode) (pv : Val) (o : List ℕ) : Val :=
  convReduce (windowPairs g K mode pv o)

/-- Sliding-mean output at one cell. -/
def meanAt (neumaier : Bool) (g : NDGrid) (K : Kern) (mode : PadMode) (pv : Val)
    (o : List ℕ) : Val :=
  meanReduce neumaier (windowPairs g K mode pv o)

/-- Sliding-median output at one cell. -/
def medianAt (g : NDGrid) (K : Kern) (mode : PadMode) (pv : Val) (o : List ℕ) : Val :=
  medianReduce (windowPairs g K mode pv o)

/-- Sliding-standard-deviation output (sigma as variance, mean) at one cell. -/
def stdAt (neumaier : Bool) (g : NDGrid) (K : Kern) (mode : PadMode) (pv : Val)
    (o : List ℕ) : Val × Val :=
  stdReduce neumaier (windowPairs g K mode pv o)

/-- Sigma-clipping output (value, mask) at one cell; the centre sample of the
window at o is the data value at o itself. -/
def clipAt (P : ClipParams) (maxIters : Option ℕ) (g : NDGrid) (K : Kern)
    (mode : PadMode) (pv : Val) (o : List ℕ) : Val × Bool :=
  clipReduce P maxIters (windowPairs g K mode pv o)
    (readAt g mode pv (o.map fun i => (i : ℤ)))

/-- Effective weight of the window at one cell. -/
def effWeightAt (g : NDGrid) (K : Kern) (mode : PadMode) (pv : Val) (o : List ℕ) : ℚ :=
  effWeight (windowPairs g K mode pv o)

/-- Modelled from the spec (4.4): partition sizes of the outermost index range
across a worker count, contiguous ranges of roughly equal size. -/
def defaultChunks : ℕ → ℕ → List ℕ
  | _, 0 => []
  | n, 1 => [n]
  | n, t + 2 =>
    let c := (n + (t + 1)) / (t + 2)
    c :: defaultChunks (n - c) (t + 1)

/-- Split a list into consecutive chunks of the given lengths. -/
def chunksBy : List α → List ℕ → List (List α)
  | _, [] => []
  | xs, c :: cs => xs.take c :: chunksBy (xs.drop c) cs

/-- Modelled from the spec (4.4 Driver): fill the output grid by partitioning
the cell list across the workers, each worker mapping its contiguous range
sequentially; the partitioned writes are concatenated in order. -/
def runDriver (f : List ℕ → α) (coords : List (List ℕ)) (workers : ℕ) : List α :=
  ((chunksBy coords (defaultChunks coords.length workers)).map (List.map f)).flatten

/-- Modelled from the spec (4.4): worker count, one per logical core when the
threads argument is None. -/
def resolveWorkers (threads : Option ℤ) (cores : ℕ) : ℕ :=
  match threads with
  | none => cores
  | some t => t.toNat

/-- Modelled from the spec (section 7 ConfigError): the core rejects a threads
argument that is an integer smaller than 1. -/
def threadsBad (threads : Option ℤ) : Bool :=
  match threads with
  | some t => decide (t < 1)
  | none => false

/-- Modelled from the spec (4.1): the padding entry of the core, a padded copy
of shape s_a + 2 p_a whose cells read through the border policy.  Not
parallelised (spec 4.5). -/
def rustPadding (g : NDGrid) (K : Kern) (mode : PadMode) (pv : Val) : NDGrid :=
  let hw := halfWidths K
  let pshape := (List.zip g.shape hw).map fun p => p.1 + 2 * p.2
  { shape := pshape
    vals := (coordsOf pshape).map fun c =>
      readAt g mode pv (offsetCoord c (List.replicate pshape.length 0) hw) }

/-- Modelled from the spec: the convolution entry of the core. -/
def rustConvolution (g : NDGrid) (K : Kern) (mode : PadMode) (pv : Val)
    (threads : Option ℤ) (cores : ℕ) : Except Err (List Val) :=
  if threadsBad threads then .error .threadsConfigError
  else .ok (runDriver (convAt g K mode pv) (coordsOf g.shape) (resolveWorkers threads cores))

/-- Modelled from the spec: the sliding-mean entry of the core. -/
def rustSlidingMean (g : NDGrid) (K : Kern) (mode : PadMode) (pv : Val)
    (neumaier : Bool) (threads : Option ℤ) (cores : ℕ) : Except Err (List Val) :=
  if threadsBad threads then .error .threadsConfigError
  else .ok (runDriver (meanAt neumaier g K mode pv) (coordsOf g.shape)
    (resolveWorkers threads cores))

/-- Modelled from the spec: the sliding-median entry of the core. -/
def rustSlidingMedian (g : NDGrid) (K : Kern) (mode : PadMode) (pv : Val)
    (threads : Option ℤ) (cores : ℕ) : Except Err (List Val) :=
  if threadsBad threads then .error .threadsConfigError
  else .ok (runDriver (medianAt g K mode pv) (coordsOf g.shape) (resolveWorkers threads cores))

/-- Modelled from the spec: the sliding-standard-deviation entry of the core,
returning the (sigma, mean) pair of grids. -/
def rustSlidingStandardDeviation (g : NDGrid) (K : Kern) (mode : PadMode) (pv : Val)
    (neumaier : Bool) (threads : Option ℤ) (cores : ℕ) :
    Except Err (List Val × List Val) :=
  if threadsBad threads then .error .threadsConfigError
  else
    let rs := runDriver (stdAt neumaier g K mode pv) (coordsOf g.shape)
      (resolveWorkers threads cores)
    .ok (rs.map Prod.fst, rs.map Prod.snd)

/-- Modelled from the spec: the sliding-sigma-clipping entry of the core,
returning the clipped grid and the replaced-positions mask. -/
def rustSlidingSigmaClipping (g : NDGrid) (K : Kern) (center : CenterChoice)
    (mode : PadMode) (pv : Val) (sigmaUpper sigmaLower : Option ℚ)
    (maxIters : Option ℕ) (threads : Option ℤ) (cores : ℕ) :
    Except Err (List Val × List Bool) :=
  if threadsBad threads then .error .threadsConfigError
  else
    let rs := runDriver (clipAt ⟨center, sigmaLower, sigmaUpper⟩ maxIters g K mode pv)
      (coordsOf g.shape) (resolveWorkers threads cores)
    .ok (rs.map Prod.fst, rs.map Prod.snd)

/-- The kernel argument accepted by the facade: a Python int, a tuple of ints,
a numpy ndarray (shape and row-major weights), or anything else (utils.py
KernelType; kother stands for a value of none of the accepted types). -/
inductive KernelDesc
  | kint (k : ℤ)
  | ktup (ks : List ℤ)
  | karr (shape : List ℕ) (weights : List ℚ)
  | kother
deriving DecidableEq, Repr

/-- All-ones kernel of a given shape (np.ones of utils.py). -/
def onesKern (shape : List ℕ) : Kern :=
  ⟨shape, List.replicate shape.prod 1⟩

/-- BaseCheck._check_kernel of utils.py: validate the kernel descriptor
against the data rank and convert it to a dense kernel.  An int must be a
positive odd integer and yields a cubic all-ones kernel of the data's rank; a
tuple must hold positive odd integers and have the data's rank, yielding an
all-ones kernel of that shape; an ndarray must have positive odd dimensions
and the data's rank and is returned as is; any other type is rejected. -/
def checkKernel (kernel : KernelDesc) (ndim : ℕ) : Except Err Kern :=
  match kernel with
  | .kint k =>
    if k ≤ 0 ∨ k % 2 = 0 then .error .shapeError
    else .ok (onesKern (List.replicate ndim k.toNat))
  | .ktup ks =>
    if ks.any fun k => decide (k ≤ 0) || decide (k % 2 = 0) then .error .shapeError
    else if ks.length ≠ ndim then .error .shapeError
    else .ok (onesKern (ks.map Int.toNat))
  | .karr shape weights =>
    if shape.any fun s => decide (s = 0) || decide (s % 2 = 0) then .error .shapeError
    else if shape.length ≠ ndim then .error .shapeError
    else .ok ⟨shape, weights⟩
  | .kother => .error .typeError

/-- The error condition exactly as the claim states it: the kernel descriptor
has a non-positive or even dimension, or is a tuple or ndarray whose rank
differs from the data's rank, or is not an int, tuple, or ndarray. -/
def claimKernelError (kernel : KernelDesc) (ndim : ℕ) : Bool :=
  match kernel with
  | .kint k => decide (k ≤ 0) || decide (k % 2 = 0)
  | .ktup ks =>
    (ks.any fun k => decide (k ≤ 0) || decide (k % 2 = 0)) || decide (ks.length ≠ ndim)
  | .karr shape _ =>
    (shape.any fun s => decide (s = 0) || decide (s % 2 = 0)) || decide (shape.length ≠ ndim)
  | .kother => true

/-- Border translation shared by every operation class (padding.py 82,
convolution.py 87, sliding_mean.py 92, sliding_median.py 86,
sliding_standard_deviation.py 109, sliding_sigma_clipping.py 137): borders
None maps to the constant mode. -/
def resolvePadMode (borders : Option PadMode) : PadMode :=
  match borders with
  | some b => b
  | none => .constant

/-- Pad-value translation shared by every operation class: with borders None
the user pad_value is discarded and NaN is used. -/
def resolvePadValue (borders : Option PadMode) (padValue : Val) : Val :=
  match borders with
  | some _ => padValue
  | none => none

/-- The Padding class (padding.py): check the kernel, translate the border
arguments, call the core. -/
def paddingOp (g : NDGrid) (kernel : KernelDesc) (borders : Option PadMode)
    (padValue : Val) : Except Err NDGrid :=
  (checkKernel kernel g.shape.length).bind fun K =>
    .ok (rustPadding g K (resolvePadMode borders) (resolvePadValue borders padValue))

/-- The Convolution class (convolution.py). -/
def convolutionOp (g : NDGrid) (kernel : KernelDesc) (borders : Option PadMode)
    (padValue : Val) (threads : Option ℤ) (cores : ℕ) : Except Err (List Val) :=
  (checkKernel kernel g.shape.length).bind fun K =>
    rustConvolution g K (resolvePadMode borders) (resolvePadValue borders padValue)
      threads cores

/-- The SlidingMean class (sliding_mean.py). -/
def slidingMeanOp (g : NDGrid) (kernel : KernelDesc) (borders : Option PadMode)
    (padValue : Val) (neumaier : Bool) (threads : Option ℤ) (cores : ℕ) :
    Except Err (List Val) :=
  (checkKernel kernel g.shape.length).bind fun K =>
    rustSlidingMean g K (resolvePadMode borders) (resolvePadValue borders padValue)
      neumaier threads cores

/-- The SlidingMedian class (sliding_median.py). -/
def slidingMedianOp (g : NDGrid) (kernel : KernelDesc) (borders : Option PadMode)
    (padValue : Val) (threads : Option ℤ) (cores : ℕ) : Except Err (List Val) :=
  (checkKernel kernel g.shape.length).bind fun K =>
    rustSlidingMedian g K (resolvePadMode borders) (resolvePadValue borders padValue)
      threads cores

/-- The SlidingStandardDeviation class (sliding_standard_deviation.py). -/
def slidingStandardDeviationOp (g : NDGrid) (kernel : KernelDesc)
    (borders : Option PadMode) (padValue : Val) (neumaier : Bool)
    (threads : Option ℤ) (cores : ℕ) : Except Err (List Val × List Val) :=
  (checkKernel kernel g.shape.length).bind fun K =>
    rustSlidingStandardDeviation g K (resolvePadMode borders)
      (resolvePadValue borders padValue) neumaier threads cores

/-- The sigma argument sentinel of sliding_sigma_clipping.py: the default
_USE_SIGMA sentinel, an explicit None, or an explicit float. -/
inductive SigArg
  | useSigma
  | noSigma
  | val (q : ℚ)
deriving DecidableEq, Repr

/-- Resolution of sigma_lower / sigma_upper (sliding_sigma_clipping.py
101-102): the sentinel takes the sigma argument, an explicit None stays None,
an explicit float stays itself. -/
def resolveSigArg (a : SigArg) (sigma : ℚ) : Option ℚ :=
  match a with
  | .useSigma => some sigma
  | .noSigma => none
  | .val q => some q

/-- The value of the clipped property: a plain array, or a masked array
carrying the replaced-positions mask. -/
inductive ClipOut
  | plain (vals : List Val)
  | maskedA (vals : List Val) (mask : List Bool)
deriving DecidableEq, Repr

/-- Whether the clipped property is a masked array. -/
def ClipOut.isMasked : ClipOut → Bool
  | .plain _ => false
  | .maskedA _ _ => true

/-- The state of a constructed SlidingSigmaClipping object: the stored
configuration and the clipped result; the raw mask is retained only inside a
masked-array result. -/
structure SSCState where
  center : CenterChoice
  sigmaLower : Option ℚ
  sigmaUpper : Option ℚ
  maskedArray : Bool
  maxIters : Option ℕ
  threads : Option ℤ
  clipped : ClipOut
deriving DecidableEq, Repr

/-- Assembly of the SlidingSigmaClipping object from the core's (values, mask)
result (sliding_sigma_clipping.py 150-151): a MaskedArray when masked_array
was requested, otherwise the plain value array with the mask dropped. -/
def sscAssemble (center : CenterChoice) (lo hi : Option ℚ) (maskedArray : Bool)
    (maxIters : Option ℕ) (threads : Option ℤ) (rustOut : List Val × List Bool) :
    SSCState :=
  { center := center
    sigmaLower := lo
    sigmaUpper := hi
    maskedArray := maskedArray
    maxIters := maxIters
    threads := threads
    clipped := if maskedArray then .maskedA rustOut.1 rustOut.2 else .plain rustOut.1 }

/-- SlidingSigmaClipping.__init__ (sliding_sigma_clipping.py 95-113): check
the kernel, resolve the sigma bounds, reject the call when both resolve to
None before any computation runs, then compute and assemble the object. -/
def sscInit (g : NDGrid) (kernel : KernelDesc) (center : CenterChoice) (sigma : ℚ)
    (sigmaLowerArg sigmaUpperArg : SigArg) (borders : Option PadMode) (padValue : Val)
    (maxIters : Option ℕ) (maskedArray : Bool) (threads : Option ℤ) (cores : ℕ) :
    Except Err SSCState :=
  (checkKernel kernel g.shape.length).bind fun K =>
    if (resolveSigArg sigmaLowerArg sigma).isNone
        && (resolveSigArg sigmaUpperArg sigma).isNone then
      .error .sigmaConfigError
    else
      (rustSlidingSigmaClipping g K center (resolvePadMode borders)
        (resolvePadValue borders padValue) (resolveSigArg sigmaUpperArg sigma)
        (resolveSigArg sigmaLowerArg sigma) maxIters threads cores).bind fun out =>
        .ok (sscAssemble center (resolveSigArg sigmaLowerArg sigma)
          (resolveSigArg sigmaUpperArg sigma) maskedArray maxIters threads out)

/-- Default kernel of SlidingSigmaClipping (sliding_sigma_clipping.py 40). -/
def sscKernelDefault : KernelDesc := .kint 3

/-- Default center_choice of SlidingSigmaClipping. -/
def sscCenterDefault : CenterChoice := .median

/-- Default sigma of SlidingSigmaClipping (sliding_sigma_clipping.py 42). -/
def sscSigmaDefault : ℚ := 3

/-- Default sigma_lower of SlidingSigmaClipping: the _USE_SIGMA sentinel. -/
def sscSigmaLowerDefault : SigArg := .useSigma

/-- Default sigma_upper of SlidingSigmaClipping: the _USE_SIGMA sentinel. -/
def sscSigmaUpperDefault : SigArg := .useSigma

/-- Default max_iters of SlidingSigmaClipping (sliding_sigma_clipping.py 47). -/
def sscMaxItersDefault : Option ℕ := some 5

/-- Default masked_array of SlidingSigmaClipping. -/
def sscMaskedArrayDefault : Bool := false

/-- Default threads of the Convolution class (convolution.py 36). -/
def convolutionClassThreadsDefault : Option ℤ := some 1

/-- Default threads of the SlidingMean class (sliding_mean.py 36). -/
def slidingMeanClassThreadsDefault : Option ℤ := some 1

/-- Default threads of the SlidingMedian class (sliding_median.py 36). -/
def slidingMedianClassThreadsDefault : Option ℤ := some 1

/-- Default threads of the SlidingStandardDeviation class
(sliding_standard_deviation.py 39). -/
def slidingStandardDeviationClassThreadsDefault : Option ℤ := some 1

/-- Default threads of the SlidingSigmaClipping class
(sliding_sigma_clipping.py 50). -/
def sscClassThreadsDefault : Option ℤ := some 1

/-- Default threads of the module-level convolution function
(package entry points, convolution signature). -/
def convolutionFnThreadsDefault : Option ℤ := none

/-- Default threads of the module-level sliding_mean function. -/
def slidingMeanFnThreadsDefault : Option ℤ := none

/-- Default threads of the module-level sliding_median function. -/
def slidingMedianFnThreadsDefault : Option ℤ := none

/-- Default threads of the module-level sliding_standard_deviation function. -/
def slidingStandardDeviationFnThreadsDefault : Option ℤ := none

/-- Default threads of the module-level sliding_sigma_clipping function. -/
def slidingSigmaClippingFnThreadsDefault : Option ℤ := none

/-- The known 2-D test array (test_wheels.py data_2d, also spec section 8). -/
def testData2d : NDGrid :=
  ⟨[4, 4],
   [none, some 3, some 1, some 0,
    some 5, some 2, none, some 4,
    some 1, none, some 5, some 3,
    some 1, some 0, some 3, some 4]⟩

/-- Row-major weights of the all-ones 3x3 kernel. -/
def kernelOnes3x3 : List ℚ := List.replicate 9 1

/-- Row-major weights of the test kernel kernel1 of test_wheels.py: a 3x3
ones kernel whose centre weight is set to 0. -/
def kernelCenterZero3x3 : List ℚ := [1, 1, 1, 1, 0, 1, 1, 1, 1]

/-- The sliding-mean grid the claim quotes (test_wheels.py
_known_mean_constant, spec section 8), row-major. -/
def knownMeanConstant : List Val :=
  [some (5/4), some (4/3), some (9/7), some (5/7),
   some 1, some 3, some (18/7), some (9/7),
   some (8/7), some (17/7), some (8/3), some (16/7),
   some (1/7), some (10/7), some (12/7), some (11/8)]

/-- One-cell data grid used for concrete instantiations. -/
def gC3 : NDGrid := ⟨[1], [some 5]⟩

/-- A 1-D kernel with signed weights of zero total: weights 1, -1, 0. -/
def kC3 : Kern := ⟨[3], [1, -1, 0]⟩

/-- A trivial 1-D all-ones size-1 kernel used for concrete instantiations. -/
def kW1 : Kern := ⟨[1], [1]⟩

/-- Two-cell data grid used for concrete instantiations. -/
def gW2 : NDGrid := ⟨[2], [some 1, some 4]⟩

end RSliding

deriving instance DecidableEq for Except

namespace RSliding

set_option maxRecDepth 10000 in
unseal Rat.add Rat.mul Rat.inv Rat.sub in
/-- C1 (counterexample): with the genuinely all-ones 3x3 kernel, the sliding
mean of the known 2-D array under constant-0 borders is not the quoted grid.
At cell (0, 1) the window holds the non-NaN samples 0, 0, 0, 3, 1, 5, 2
(the centre 3 included, since the all-ones kernel weights it), so the mean is
11/7ths, not the quoted 4/3rds. -/
theorem c1_counterexample :
    slidingMeanOp testData2d (.karr [3, 3] kernelOnes3x3) (some .constant) (some 0)
      false (some 2) 1 ≠ .ok knownMeanConstant := by
  decide

set_option maxRecDepth 10000 in
unseal Rat.add Rat.mul Rat.inv Rat.sub in
/-- C1 (amended): with the 3x3 kernel actually used by the regression test,
all-ones except a zero centre weight, the sliding mean of the known 2-D array
under constant-0 borders is exactly the quoted grid. -/
theorem c1_known_mean_grid :
    slidingMeanOp testData2d (.karr [3, 3] kernelCenterZero3x3) (some .constant) (some 0)
      false (some 2) 1 = .ok knownMeanConstant := by
  decide

/-- C2: every operation class called with borders None produces output
identical to the same call with borders constant and pad value NaN, and the
user-supplied pad value has no effect when borders is None. -/
theorem c2_border_equivalence (g : NDGrid) (kd : KernelDesc) (pv pv' : Val)
    (nm : Bool) (th : Option ℤ) (cores : ℕ) (center : CenterChoice) (sigma : ℚ)
    (loArg hiArg : SigArg) (mi : Option ℕ) (ma : Bool) :
    (paddingOp g kd none pv = paddingOp g kd (some .constant) none
      ∧ paddingOp g kd none pv = paddingOp g kd none pv')
    ∧ (convolutionOp g kd none pv th cores
        = convolutionOp g kd (some .constant) none th cores
      ∧ convolutionOp g kd none pv th cores = convolutionOp g kd none pv' th cores)
    ∧ (slidingMeanOp g kd none pv nm th cores
        = slidingMeanOp g kd (some .constant) none nm th cores
      ∧ slidingMeanOp g kd none pv nm th cores = slidingMeanOp g kd none pv' nm th cores)
    ∧ (slidingMedianOp g kd none pv th cores
        = slidingMedianOp g kd (some .constant) none th cores
      ∧ slidingMedianOp g kd none pv th cores = slidingMedianOp g kd none pv' th cores)
    ∧ (slidingStandardDeviationOp g kd none pv nm th cores
        = slidingStandardDeviationOp g kd (some .constant) none nm th cores
      ∧ slidingStandardDeviationOp g kd none pv nm th cores
        = slidingStandardDeviationOp g kd none pv' nm th cores)
    ∧ (sscInit g kd center sigma loArg hiArg none pv mi ma th cores
        = sscInit g kd center sigma loArg hiArg (some .constant) none mi ma th cores
      ∧ sscInit g kd center sigma loArg hiArg none pv mi ma th cores
        = sscInit g kd center sigma loArg hiArg none pv' mi ma th cores) := by
  exact ⟨⟨rfl, rfl⟩, ⟨rfl, rfl⟩, ⟨rfl, rfl⟩, ⟨rfl, rfl⟩, ⟨rfl, rfl⟩, ⟨rfl, rfl⟩⟩

/-- C8: every core operation that takes a threads argument rejects an integer
threads value smaller than 1 with the configuration error, producing no
output. -/
theorem c8_threads_config_error (g : NDGrid) (K : Kern) (mode : PadMode) (pv : Val)
    (nm : Bool) (center : CenterChoice) (hi lo : Option ℚ) (mi : Option ℕ)
    (cores : ℕ) (t : ℤ) (ht : t < 1) :
    rustConvolution g K mode pv (some t) cores = .error .threadsConfigError
    ∧ rustSlidingMean g K mode pv nm (some t) cores = .error .threadsConfigError
    ∧ rustSlidingMedian g K mode pv (some t) cores = .error .threadsConfigError
    ∧ rustSlidingStandardDeviation g K mode pv nm (some t) cores
        = .error .threadsConfigError
    ∧ rustSlidingSigmaClipping g K center mode pv hi lo mi (some t) cores
        = .error .threadsConfigError := by
  have hb : threadsBad (some t) = true := by simp [threadsBad, ht]
  exact ⟨by simp [rustConvolution, hb], by simp [rustSlidingMean, hb],
    by simp [rustSlidingMedian, hb], by simp [rustSlidingStandardDeviation, hb],
    by simp [rustSlidingSigmaClipping, hb]⟩

/-- C8 (witness): the convolution core called with threads 0 on a concrete
one-cell grid errors out with the configuration error. -/
theorem c8_witness :
    rustConvolution gC3 kW1 .constant (some 0) (some 0) 1 = .error .threadsConfigError
    ∧ rustSlidingMean gC3 kW1 .constant (some 0) false (some 0) 1
        = .error .threadsConfigError
    ∧ rustSlidingMedian gC3 kW1 .constant (some 0) (some 0) 1
        = .error .threadsConfigError
    ∧ rustSlidingStandardDeviation gC3 kW1 .constant (some 0) false (some 0) 1
        = .error .threadsConfigError
    ∧ rustSlidingSigmaClipping gC3 kW1 .mean .constant (some 0) (some 3) (some 3)
        (some 5) (some 0) 1 = .error .threadsConfigError :=
  c8_threads_config_error gC3 kW1 .constant (some 0) false .mean (some 3) (some 3)
    (some 5) 1 0 (by decide)

/-- C9: a sigma bound left at its sentinel default resolves to the sigma
argument (itself defaulting to 3), an explicit value stays itself, and only an
explicit None resolves to None, which disables clipping on that side of the
per-sample clip test. -/
theorem c9_sigma_defaults (sigma q : ℚ) (hi : Option ℚ) (mu s2 x : ℚ) :
    resolveSigArg sscSigmaLowerDefault sigma = some sigma
    ∧ resolveSigArg sscSigmaUpperDefault sigma = some sigma
    ∧ resolveSigArg sscSigmaLowerDefault sscSigmaDefault = some 3
    ∧ resolveSigArg .noSigma sigma = none
    ∧ resolveSigArg (.val q) sigma = some q
    ∧ lowerClipped none mu s2 x = false
    ∧ upperClipped none mu s2 x = false
    ∧ isClipped none hi mu s2 x = upperClipped hi mu s2 x
    ∧ isClipped none none mu s2 x = false := by
  refine ⟨rfl, rfl, rfl, rfl, rfl, rfl, rfl, ?_, rfl⟩
  simp [isClipped, lowerClipped]

/-- C10: the clipped property of an assembled SlidingSigmaClipping object is a
masked array carrying the replaced-positions mask exactly when masked_array
was requested; with the default plain result the mask is dropped, and the
object state does not depend on it at all. -/
theorem c10_masked_array (center : CenterChoice) (lo hi : Option ℚ) (mi : Option ℕ)
    (th : Option ℤ) (vals : List Val) (mask mask' : List Bool) (ma : Bool) :
    (sscAssemble center lo hi ma mi th (vals, mask)).clipped.isMasked = ma
    ∧ (sscAssemble center lo hi true mi th (vals, mask)).clipped = .maskedA vals mask
    ∧ (sscAssemble center lo hi false mi th (vals, mask)).clipped = .plain vals
    ∧ sscAssemble center lo hi false mi th (vals, mask)
        = sscAssemble center lo hi false mi th (vals, mask') := by
  cases ma <;> exact ⟨rfl, rfl, rfl, rfl⟩

/-- C4: the kernel validation errors out exactly under the conditions the
claim lists, and on success the returned kernel has the data's rank with
positive odd dimensions. -/
theorem c4_kernel_validation (kd : KernelDesc) (n : ℕ) :
    ((∃ e, checkKernel kd n = .error e) ↔ claimKernelError kd n = true)
    ∧ ∀ K, checkKernel kd n = .ok K →
        K.shape.length = n ∧ ∀ s ∈ K.shape, 0 < s ∧ s % 2 = 1 := by
  cases kd with
  | kint k =>
    constructor
    · simp only [checkKernel, claimKernelError]
      split
      · rename_i h
        exact iff_of_true ⟨_, rfl⟩
          (by simp only [Bool.or_eq_true, decide_eq_true_eq]; exact h)
      · rename_i h
        refine iff_of_false (by simp) ?_
        simp only [Bool.or_eq_true, decide_eq_true_eq]
        exact fun hc => h hc
    · intro K hK
      simp only [checkKernel] at hK
      split at hK
      · cases hK
      · rename_i h
        cases hK
        refine ⟨by simp [onesKern], ?_⟩
        intro s hs
        rw [onesKern] at hs
        simp only [List.mem_replicate] at hs
        obtain ⟨-, rfl⟩ := hs
        push_neg at h
        omega
  | ktup ks =>
    constructor
    · simp only [checkKernel, claimKernelError]
      split
      · rename_i h
        exact iff_of_true ⟨_, rfl⟩ (by simp only [h, Bool.true_or])
      · rename_i h
        split
        · rename_i h2
          refine iff_of_true ⟨_, rfl⟩ ?_
          simp only [Bool.or_eq_true, decide_eq_true_eq]
          exact Or.inr h2
        · rename_i h2
          refine iff_of_false (by simp) ?_
          simp only [Bool.or_eq_true, decide_eq_true_eq]
          rintro (hc | hc)
          · exact h hc
          · exact h2 hc
    · intro K hK
      simp only [checkKernel] at hK
      split at hK
      · cases hK
      · split at hK
        · cases hK
        · rename_i h h2
          cases hK
          constructor
          · simp only [onesKern, List.length_map]
            omega
          · intro s hs
            simp only [onesKern, List.mem_map] at hs
            obtain ⟨k, hk, rfl⟩ := hs
            have h' : ¬(k ≤ 0 ∨ k % 2 = 0) := by
              intro hc
              exact h (List.any_eq_true.mpr
                ⟨k, hk, by simp only [Bool.or_eq_true, decide_eq_true_eq]; exact hc⟩)
            push_neg at h'
            omega
  | karr shape weights =>
    constructor
    · simp only [checkKernel, claimKernelError]
      split
      · rename_i h
        exact iff_of_true ⟨_, rfl⟩ (by simp only [h, Bool.true_or])
      · rename_i h
        split
        · rename_i h2
          refine iff_of_true ⟨_, rfl⟩ ?_
          simp only [Bool.or_eq_true, decide_eq_true_eq]
          exact Or.inr h2
        · rename_i h2
          refine iff_of_false (by simp) ?_
          simp only [Bool.or_eq_true, decide_eq_true_eq]
          rintro (hc | hc)
          · exact h hc
          · exact h2 hc
    · intro K hK
      simp only [checkKernel] at hK
      split at hK
      · cases hK
      · split at hK
        · cases hK
        · rename_i h h2
          cases hK
          refine ⟨not_ne_iff.mp h2, ?_⟩
          intro s hs
          have h' : ¬(s = 0 ∨ s % 2 = 0) := by
            intro hc
            exact h (List.any_eq_true.mpr
              ⟨s, hs, by simp only [Bool.or_eq_true, decide_eq_true_eq]; exact hc⟩)
          push_neg at h'
          omega
  | kother =>
    refine ⟨iff_of_true ⟨_, rfl⟩ rfl, ?_⟩
    intro K hK
    cases hK

/-- C4 (witness): a concrete 1-D ndarray kernel of shape 3 passes validation
with rank 1 and positive odd dimensions, and a concrete even kernel errors. -/
theorem c4_witness :
    (⟨[3], [1, -1, 0]⟩ : Kern).shape.length = 1
    ∧ (∀ s ∈ (⟨[3], [1, -1, 0]⟩ : Kern).shape, 0 < s ∧ s % 2 = 1)
    ∧ claimKernelError (.kint 4) 1 = true := by
  refine ⟨?_, ?_, ?_⟩
  · exact ((c4_kernel_validation (.karr [3] [1, -1, 0]) 1).2 ⟨[3], [1, -1, 0]⟩ rfl).1
  · exact ((c4_kernel_validation (.karr [3] [1, -1, 0]) 1).2 ⟨[3], [1, -1, 0]⟩ rfl).2
  · exact (c4_kernel_validation (.kint 4) 1).1.mp ⟨.shapeError, rfl⟩

lemma exbind_error {α β : Type} (e : Err) (f : α → Except Err β) :
    (Except.error e).bind f = .error e := rfl

lemma exbind_ok {α β : Type} (a : α) (f : α → Except Err β) :
    (Except.ok a).bind f = f a := rfl

lemma checkKernel_no_sigma_error (kd : KernelDesc) (n : ℕ) :
    checkKernel kd n ≠ .error .sigmaConfigError := by
  cases kd with
  | kint k =>
    simp only [checkKernel]
    split <;> simp
  | ktup ks =>
    simp only [checkKernel]
    split
    · simp
    · split <;> simp
  | karr shape weights =>
    simp only [checkKernel]
    split
    · simp
    · split <;> simp
  | kother => simp [checkKernel]

/-- C5: the SlidingSigmaClipping constructor fails with the sigma
configuration error exactly when the kernel check passes and both sigma
bounds resolve to None; the Except result then carries no state at all, so
nothing is computed or allocated. -/
theorem c5_sigma_validation (g : NDGrid) (kd : KernelDesc) (center : CenterChoice)
    (sigma : ℚ) (loArg hiArg : SigArg) (b : Option PadMode) (pv : Val)
    (mi : Option ℕ) (ma : Bool) (th : Option ℤ) (cores : ℕ) :
    sscInit g kd center sigma loArg hiArg b pv mi ma th cores
      = .error .sigmaConfigError
    ↔ ((∃ K, checkKernel kd g.shape.length = .ok K)
       ∧ resolveSigArg loArg sigma = none ∧ resolveSigArg hiArg sigma = none) := by
  constructor
  · intro h
    unfold sscInit at h
    cases hk : checkKernel kd g.shape.length with
    | error e =>
      rw [hk, exbind_error] at h
      injection h with he
      rw [he] at hk
      exact absurd hk (checkKernel_no_sigma_error kd _)
    | ok K =>
      rw [hk, exbind_ok] at h
      split at h
      · rename_i hcond
        rw [Bool.and_eq_true, Option.isNone_iff_eq_none, Option.isNone_iff_eq_none]
          at hcond
        exact ⟨⟨K, rfl⟩, hcond.1, hcond.2⟩
      · exfalso
        simp only [rustSlidingSigmaClipping] at h
        split at h
        · rw [exbind_error] at h
          simp at h
        · rw [exbind_ok] at h
          cases h
  · rintro ⟨⟨K, hk⟩, hlo, hhi⟩
    unfold sscInit
    rw [hk, exbind_ok, if_pos]
    rw [Bool.and_eq_true, Option.isNone_iff_eq_none, Option.isNone_iff_eq_none]
    exact ⟨hlo, hhi⟩

/-- C5 (witness): with both sigma bounds explicitly None and an otherwise
valid concrete call the constructor errors with the sigma configuration
error, and with only the lower bound None it does not. -/
theorem c5_witness :
    sscInit gC3 (.kint 3) .median 3 .noSigma .noSigma (some .constant) (some 0)
      (some 5) false (some 1) 1 = .error .sigmaConfigError
    ∧ sscInit gC3 (.kint 3) .median 3 .noSigma .useSigma (some .constant) (some 0)
      (some 5) false (some 1) 1 ≠ .error .sigmaConfigError := by
  constructor
  · exact (c5_sigma_validation gC3 (.kint 3) .median 3 .noSigma .noSigma
      (some .constant) (some 0) (some 5) false (some 1) 1).mpr
      ⟨⟨onesKern [3], by decide⟩, rfl, rfl⟩
  · intro h
    have := (c5_sigma_validation gC3 (.kint 3) .median 3 .noSigma .useSigma
      (some .constant) (some 0) (some 5) false (some 1) 1).mp h
    exact absurd this.2.2 (by simp [resolveSigArg])

lemma checkKernel_ones_forms (n k : ℕ) (hk : k % 2 = 1) :
    checkKernel (.kint (k : ℤ)) n = .ok (onesKern (List.replicate n k))
    ∧ checkKernel (.ktup (List.replicate n (k : ℤ))) n
        = .ok (onesKern (List.replicate n k))
    ∧ checkKernel (.karr (List.replicate n k) (List.replicate (k ^ n) 1)) n
        = .ok (onesKern (List.replicate n k)) := by
  have hkz : ((k : ℤ)).toNat = k := by omega
  refine ⟨?_, ?_, ?_⟩
  · simp only [checkKernel]
    rw [if_neg (by omega)]
    rw [hkz]
  · simp only [checkKernel]
    rw [if_neg ?hc]
    case hc =>
      simp only [List.any_eq_true, List.mem_replicate, Bool.or_eq_true,
        decide_eq_true_eq]
      rintro ⟨x, ⟨-, rfl⟩, hx⟩
      omega
    rw [if_neg (by simp)]
    rw [List.map_replicate, hkz]
  · simp only [checkKernel]
    rw [if_neg ?hc2]
    case hc2 =>
      simp only [List.any_eq_true, List.mem_replicate, Bool.or_eq_true,
        decide_eq_true_eq]
      rintro ⟨x, ⟨-, rfl⟩, hx⟩
      omega
    rw [if_neg (by simp)]
    rw [onesKern, List.prod_replicate]

/-- C6: for a positive odd k, the three kernel descriptor forms, the integer
k, the rank-length tuple of k, and the dense all-ones array of that cubic
shape, validate to the same kernel, and every operation produces identical
results on the three forms. -/
theorem c6_kernel_descriptor_equiv (g : NDGrid) (b : Option PadMode) (pv : Val)
    (nm : Bool) (th : Option ℤ) (cores : ℕ) (center : CenterChoice) (sigma : ℚ)
    (loArg hiArg : SigArg) (mi : Option ℕ) (ma : Bool) (k : ℕ) (hk : k % 2 = 1) :
    (checkKernel (.kint (k : ℤ)) g.shape.length
       = checkKernel (.ktup (List.replicate g.shape.length (k : ℤ))) g.shape.length
     ∧ checkKernel (.kint (k : ℤ)) g.shape.length
       = checkKernel (.karr (List.replicate g.shape.length k)
           (List.replicate (k ^ g.shape.length) 1)) g.shape.length)
    ∧ (paddingOp g (.kint (k : ℤ)) b pv
        = paddingOp g (.ktup (List.replicate g.shape.length (k : ℤ))) b pv
      ∧ paddingOp g (.kint (k : ℤ)) b pv
        = paddingOp g (.karr (List.replicate g.shape.length k)
            (List.replicate (k ^ g.shape.length) 1)) b pv)
    ∧ (convolutionOp g (.kint (k : ℤ)) b pv th cores
        = convolutionOp g (.ktup (List.replicate g.shape.length (k : ℤ))) b pv th cores
      ∧ convolutionOp g (.kint (k : ℤ)) b pv th cores
        = convolutionOp g (.karr (List.replicate g.shape.length k)
            (List.replicate (k ^ g.shape.length) 1)) b pv th cores)
    ∧ (slidingMeanOp g (.kint (k : ℤ)) b pv nm th cores
        = slidingMeanOp g (.ktup (List.replicate g.shape.length (k : ℤ))) b pv nm th cores
      ∧ slidingMeanOp g (.kint (k : ℤ)) b pv nm th cores
        = slidingMeanOp g (.karr (List.replicate g.shape.length k)
            (List.replicate (k ^ g.shape.length) 1)) b pv nm th cores)
    ∧ (slidingMedianOp g (.kint (k : ℤ)) b pv th cores
        = slidingMedianOp g (.ktup (List.replicate g.shape.length (k : ℤ))) b pv th cores
      ∧ slidingMedianOp g (.kint (k : ℤ)) b pv th cores
        = slidingMedianOp g (.karr (List.replicate g.shape.length k)
            (List.replicate (k ^ g.shape.length) 1)) b pv th cores)
    ∧ (slidingStandardDeviationOp g (.kint (k : ℤ)) b pv nm th cores
        = slidingStandardDeviationOp g (.ktup (List.replicate g.shape.length (k : ℤ)))
            b pv nm th cores
      ∧ slidingStandardDeviationOp g (.kint (k : ℤ)) b pv nm th cores
        = slidingStandardDeviationOp g (.karr (List.replicate g.shape.length k)
            (List.replicate (k ^ g.shape.length) 1)) b pv nm th cores)
    ∧ (sscInit g (.kint (k : ℤ)) center sigma loArg hiArg b pv mi ma th cores
        = sscInit g (.ktup (List.replicate g.shape.length (k : ℤ))) center sigma
            loArg hiArg b pv mi ma th cores
      ∧ sscInit g (.kint (k : ℤ)) center sigma loArg hiArg b pv mi ma th cores
        = sscInit g (.karr (List.replicate g.shape.length k)
            (List.replicate (k ^ g.shape.length) 1)) center sigma loArg hiArg b pv
            mi ma th cores) := by
  obtain ⟨h1, h2, h3⟩ := checkKernel_ones_forms g.shape.length k hk
  refine ⟨⟨h1.trans h2.symm, h1.trans h3.symm⟩, ⟨?_, ?_⟩, ⟨?_, ?_⟩, ⟨?_, ?_⟩,
    ⟨?_, ?_⟩, ⟨?_, ?_⟩, ⟨?_, ?_⟩⟩ <;>
    simp only [paddingOp, convolutionOp, slidingMeanOp, slidingMedianOp,
      slidingStandardDeviationOp, sscInit, h1, h2, h3]

/-- C6 (witness): on a concrete two-cell 1-D grid with k = 3, the integer,
tuple, and all-ones array descriptors give the same validated kernel and the
same sliding mean. -/
theorem c6_witness :
    checkKernel (.kint 3) gW2.shape.length
      = checkKernel (.ktup (List.replicate gW2.shape.length 3)) gW2.shape.length
    ∧ slidingMeanOp gW2 (.kint 3) (some .constant) (some 0) false (some 1) 1
      = slidingMeanOp gW2 (.karr (List.replicate gW2.shape.length 3)
          (List.replicate (3 ^ gW2.shape.length) 1)) (some .constant) (some 0) false
          (some 1) 1 := by
  have h := c6_kernel_descriptor_equiv gW2 (some .constant) (some 0) false (some 1) 1
    .median 3 .useSigma .useSigma (some 5) false 3 (by decide)
  exact ⟨h.1.1, h.2.2.2.1.2⟩

lemma defaultChunks_sum (t : ℕ) : ∀ n, 1 ≤ t → (defaultChunks n t).sum = n := by
  induction t with
  | zero => intro n hn; omega
  | succ t ih =>
    intro n hn
    match t with
    | 0 => simp [defaultChunks]
    | t + 1 =>
      have hc : (n + (t + 1)) / (t + 2) ≤ n := by
        rw [← Nat.lt_succ_iff, Nat.div_lt_iff_lt_mul (by omega)]
        have hexp : n.succ * (t + 2) = n * t + 2 * n + t + 2 := by
          rw [Nat.succ_eq_add_one]
          ring
        have hnn : 0 ≤ n * t := Nat.zero_le _
        omega
      have ihs := ih (n - (n + (t + 1)) / (t + 2)) (by omega)
      simp only [defaultChunks, List.sum_cons, ihs]
      omega

lemma chunksBy_flatten {α : Type} (cs : List ℕ) :
    ∀ xs : List α, cs.sum = xs.length → (chunksBy xs cs).flatten = xs := by
  induction cs with
  | nil =>
    intro xs h
    simp only [List.sum_nil] at h
    rw [List.eq_nil_of_length_eq_zero h.symm]
    rfl
  | cons c cs ih =>
    intro xs h
    simp only [List.sum_cons] at h
    simp only [chunksBy, List.flatten_cons]
    rw [ih (xs.drop c) (by simp only [List.length_drop]; omega)]
    exact List.take_append_drop c xs

lemma runDriver_eq_map {α : Type} (f : List ℕ → α) (coords : List (List ℕ))
    (w : ℕ) (hw : 1 ≤ w) : runDriver f coords w = coords.map f := by
  unfold runDriver
  rw [← List.map_flatten]
  rw [chunksBy_flatten _ _ (defaultChunks_sum w coords.length hw)]

/-- C7 (amended): the five operation classes default their threads argument to
1, under which the driver resolves to a single worker (no thread spawn), while
the module-level functions default threads to None, which resolves to one
worker per logical core; and for any worker count the driver output equals
the single-worker output. -/
theorem c7_threads_default (cores : ℕ) (f : List ℕ → Val) (coords : List (List ℕ))
    (w : ℕ) (hw : 1 ≤ w) :
    convolutionClassThreadsDefault = some 1
    ∧ slidingMeanClassThreadsDefault = some 1
    ∧ slidingMedianClassThreadsDefault = some 1
    ∧ slidingStandardDeviationClassThreadsDefault = some 1
    ∧ sscClassThreadsDefault = some 1
    ∧ convolutionFnThreadsDefault = none
    ∧ slidingMeanFnThreadsDefault = none
    ∧ slidingMedianFnThreadsDefault = none
    ∧ slidingStandardDeviationFnThreadsDefault = none
    ∧ slidingSigmaClippingFnThreadsDefault = none
    ∧ resolveWorkers (some 1) cores = 1
    ∧ resolveWorkers none cores = cores
    ∧ runDriver f coords w = runDriver f coords 1 := by
  refine ⟨rfl, rfl, rfl, rfl, rfl, rfl, rfl, rfl, rfl, rfl, rfl, rfl, ?_⟩
  rw [runDriver_eq_map f coords w hw, runDriver_eq_map f coords 1 (le_refl 1)]

/-- C7 (counterexample): the module-level convolution function does not
default threads to 1: its default is None, and on a 2-core machine that
resolves to 2 workers, not the single-threaded 1. -/
theorem c7_counterexample :
    convolutionFnThreadsDefault ≠ some 1
    ∧ resolveWorkers convolutionFnThreadsDefault 2
        ≠ resolveWorkers convolutionClassThreadsDefault 2 := by
  exact ⟨by simp [convolutionFnThreadsDefault], by decide⟩

/-- C7 (witness): on a concrete three-cell coordinate list the two-worker
driver run equals the single-worker run. -/
theorem c7_witness :
    runDriver (fun _ => (some 0 : Val)) [[0], [1], [2]] 2
      = runDriver (fun _ => (some 0 : Val)) [[0], [1], [2]] 1 :=
  (c7_threads_default 4 (fun _ => (some 0 : Val)) [[0], [1], [2]] 2
    (by decide)).2.2.2.2.2.2.2.2.2.2.2.2

lemma effWeight_eq_valid_sum (pairs : List (Val × ℚ)) :
    effWeight pairs = ((validPairs pairs).map fun p => p.2).sum := by
  induction pairs with
  | nil => rfl
  | cons p rest ih =>
    obtain ⟨v, w⟩ := p
    cases v with
    | none => simpa [effWeight, validPairs, List.filterMap_cons] using ih
    | some x =>
      by_cases hw : w = 0
      · subst hw
        simpa [effWeight, validPairs, List.filterMap_cons] using ih
      · simpa [effWeight, validPairs, List.filterMap_cons, hw] using ih

lemma validPairs_mem {pairs : List (Val × ℚ)} {q : ℚ × ℚ}
    (hq : q ∈ validPairs pairs) : (some q.1, q.2) ∈ pairs ∧ q.2 ≠ 0 := by
  obtain ⟨qx, qw⟩ := q
  simp only [validPairs, List.mem_filterMap] at hq
  obtain ⟨a, ha, hfa⟩ := hq
  obtain ⟨av, aw⟩ := a
  cases av with
  | none => simp at hfa
  | some x =>
    by_cases hw : aw = 0
    · simp [hw] at hfa
    · simp only [if_neg hw, Option.some.injEq, Prod.mk.injEq] at hfa
      obtain ⟨rfl, rfl⟩ := hfa
      exact ⟨ha, hw⟩

lemma validPairs_weight_pos {pairs : List (Val × ℚ)} (h : ∀ p ∈ pairs, 0 ≤ p.2) :
    ∀ q ∈ validPairs pairs, 0 < q.2 := by
  intro q hq
  obtain ⟨hmem, hne⟩ := validPairs_mem hq
  exact lt_of_le_of_ne (h _ hmem) (Ne.symm hne)

lemma valid_nil_of_effWeight_zero {pairs : List (Val × ℚ)}
    (h0 : effWeight pairs = 0) (hw : ∀ p ∈ pairs, 0 ≤ p.2) :
    validPairs pairs = [] := by
  rw [effWeight_eq_valid_sum] at h0
  by_contra hne
  obtain ⟨q, rest', hq⟩ := List.exists_cons_of_ne_nil hne
  have hqpos : 0 < q.2 :=
    validPairs_weight_pos hw q (hq ▸ List.mem_cons_self q rest')
  have hrest : 0 ≤ (rest'.map fun p => p.2).sum := by
    apply List.sum_nonneg
    intro x hx
    obtain ⟨p, hp, rfl⟩ := List.mem_map.mp hx
    exact (validPairs_weight_pos hw p (hq ▸ List.mem_cons_of_mem q hp)).le
  rw [hq, List.map_cons, List.sum_cons] at h0
  linarith

lemma valid_ne_nil_of_effWeight_ne_zero {pairs : List (Val × ℚ)}
    (h0 : effWeight pairs ≠ 0) : validPairs pairs ≠ [] := by
  intro hnil
  rw [effWeight_eq_valid_sum, hnil] at h0
  exact h0 rfl

lemma validW_nonneg {pairs : List (Val × ℚ)} (hw : ∀ p ∈ pairs, 0 ≤ p.2) :
    0 ≤ ((validPairs pairs).map fun p => p.2).sum := by
  apply List.sum_nonneg
  intro x hx
  obtain ⟨p, hp, rfl⟩ := List.mem_map.mp hx
  exact (validPairs_weight_pos hw p hp).le

lemma validW_pos {pairs : List (Val × ℚ)} (h0 : effWeight pairs ≠ 0)
    (hw : ∀ p ∈ pairs, 0 ≤ p.2) :
    0 < ((validPairs pairs).map fun p => p.2).sum := by
  refine lt_of_le_of_ne (validW_nonneg hw) (Ne.symm ?_)
  rw [← effWeight_eq_valid_sum]
  exact h0

lemma neumaierStep_eq (s c y : ℚ) : neumaierStep (s, c) y = (s + y, c) := by
  have h1 : (s - (s + y)) + y = 0 := by ring
  have h2 : (y - (s + y)) + s = 0 := by ring
  simp only [neumaierStep]
  split <;> simp [h1, h2]

lemma neumaier_foldl (l : List ℚ) :
    ∀ s c : ℚ, l.foldl neumaierStep (s, c) = (s + l.sum, c) := by
  induction l with
  | nil => intro s c; simp
  | cons y rest ih =>
    intro s c
    rw [List.foldl_cons, neumaierStep_eq, ih, List.sum_cons, add_assoc]

lemma neumaierSum_eq (l : List ℚ) : neumaierSum l = l.sum := by
  simp only [neumaierSum]
  rw [neumaier_foldl]
  simp

lemma sumF_eq (b : Bool) (l : List ℚ) : sumF b l = l.sum := by
  cases b
  · rfl
  · exact neumaierSum_eq l

lemma getD_nonneg {l : List ℚ} (h : ∀ w ∈ l, 0 ≤ w) (i : ℕ) : 0 ≤ l.getD i 0 := by
  induction l generalizing i with
  | nil => simp [List.getD]
  | cons a rest ih =>
    cases i with
    | zero => simpa using h a (List.mem_cons_self a rest)
    | succ n =>
      simp only [List.getD_cons_succ]
      exact ih (fun w hw => h w (List.mem_cons_of_mem a hw)) n

lemma windowPairs_weight_nonneg {g : NDGrid} {K : Kern} {mode : PadMode} {pv : Val}
    {o : List ℕ} (hK : ∀ w ∈ K.weights, 0 ≤ w) :
    ∀ p ∈ windowPairs g K mode pv o, 0 ≤ p.2 := by
  intro p hp
  simp only [windowPairs, List.mem_map] at hp
  obtain ⟨j, hj, rfl⟩ := hp
  exact getD_nonneg hK (flatIdx K.shape j)

lemma insertSorted_length (p : ℚ × ℚ) (l : List (ℚ × ℚ)) :
    (insertSorted p l).length = l.length + 1 := by
  induction l with
  | nil => rfl
  | cons q rest ih =>
    simp only [insertSorted]
    split
    · simp [ih]
    · simp

lemma mem_insertSorted {q p : ℚ × ℚ} {l : List (ℚ × ℚ)} :
    q ∈ insertSorted p l ↔ q = p ∨ q ∈ l := by
  induction l with
  | nil => simp [insertSorted]
  | cons r rest ih =>
    simp only [insertSorted]
    split
    · simp only [List.mem_cons, ih]
      tauto
    · simp only [List.mem_cons]

lemma sortPairs_length (l : List (ℚ × ℚ)) :
    (l.foldr insertSorted []).length = l.length := by
  induction l with
  | nil => rfl
  | cons p rest ih =>
    simp only [List.foldr_cons, insertSorted_length, ih, List.length_cons]

lemma mem_sortPairs {q : ℚ × ℚ} {l : List (ℚ × ℚ)} :
    q ∈ l.foldr insertSorted [] ↔ q ∈ l := by
  induction l with
  | nil => simp
  | cons p rest ih => simp only [List.foldr_cons, mem_insertSorted, ih, List.mem_cons]

lemma medianPick_isSome (W : ℚ) (l : List (ℚ × ℚ)) :
    ∀ acc : ℚ, l ≠ [] → W / 2 ≤ acc + (l.map fun p => p.2).sum →
      (medianPick acc W l).isSome = true := by
  induction l with
  | nil => intro acc h; exact absurd rfl h
  | cons p rest ih =>
    intro acc _ hsum
    obtain ⟨x, w⟩ := p
    simp only [medianPick]
    split
    · split
      · cases rest with
        | nil => rfl
        | cons r rs =>
          obtain ⟨y, wy⟩ := r
          rfl
      · rfl
    · rename_i hlt
      push_neg at hlt
      cases rest with
      | nil =>
        exfalso
        simp only [List.map_cons, List.map_nil, List.sum_cons, List.sum_nil] at hsum
        linarith
      | cons r rs =>
        refine ih (acc + w) (by simp) ?_
        simp only [List.map_cons, List.sum_cons] at hsum ⊢
        linarith

lemma centerOf_nil (c : CenterChoice) : centerOf c [] = none := by
  cases c <;> rfl

lemma clipIter_nil (P : ClipParams) (fuel : ℕ) (removed : List ℚ) :
    clipIter P fuel [] removed = (none, removed) := by
  cases fuel with
  | zero => simp [clipIter, centerOf_nil]
  | succ f => simp [clipIter, centerOf_nil]

lemma medianReduce_isSome {pairs : List (Val × ℚ)} (h0 : effWeight pairs ≠ 0)
    (hw : ∀ p ∈ pairs, 0 ≤ p.2) : medianReduce pairs ≠ none := by
  have hvne := valid_ne_nil_of_effWeight_ne_zero h0
  simp only [medianReduce]
  have hsne : (validPairs pairs).foldr insertSorted [] ≠ [] := by
    intro hnil
    have hlen := sortPairs_length (validPairs pairs)
    rw [hnil] at hlen
    exact hvne (List.length_eq_zero.mp hlen.symm)
  have hnn : 0 ≤ (((validPairs pairs).foldr insertSorted []).map fun p => p.2).sum := by
    apply List.sum_nonneg
    intro x hx
    obtain ⟨q, hq, rfl⟩ := List.mem_map.mp hx
    exact (validPairs_weight_pos hw q (mem_sortPairs.mp hq)).le
  have hpick := medianPick_isSome
    ((((validPairs pairs).foldr insertSorted []).map fun p => p.2).sum)
    ((validPairs pairs).foldr insertSorted []) 0 hsne (by linarith)
  intro hcon
  rw [hcon] at hpick
  simp at hpick

lemma stdReduce_isSome {pairs : List (Val × ℚ)} (nm : Bool)
    (h0 : effWeight pairs ≠ 0) (hw : ∀ p ∈ pairs, 0 ≤ p.2) :
    (stdReduce nm pairs).1 ≠ none ∧ (stdReduce nm pairs).2 ≠ none := by
  have hWpos := validW_pos h0 hw
  simp only [stdReduce, sumF_eq]
  rw [if_neg (by linarith)]
  refine ⟨?_, by simp⟩
  have hnum : 0 ≤ ((validPairs pairs).map fun p =>
      p.2 * (p.1 - ((validPairs pairs).map fun p => p.2 * p.1).sum /
        ((validPairs pairs).map fun p => p.2).sum)
        * (p.1 - ((validPairs pairs).map fun p => p.2 * p.1).sum /
        ((validPairs pairs).map fun p => p.2).sum)).sum := by
    apply List.sum_nonneg
    intro x hx
    obtain ⟨p, hp, rfl⟩ := List.mem_map.mp hx
    rw [mul_assoc]
    exact mul_nonneg (validPairs_weight_pos hw p hp).le (mul_self_nonneg _)
  rw [if_neg (not_lt.mpr (div_nonneg hnum (le_of_lt hWpos)))]
  simp

set_option maxHeartbeats 800000 in
/-- C3 (amended): for kernels with nonnegative weights, at every output cell
of every reducer operation: when the effective weight is zero the convolution,
mean, and median outputs and both standard-deviation outputs are NaN, the
sigma-clipping output value is NaN, and the sigma-clipping mask is true
whenever the cell's own sample is NaN; when the effective weight is nonzero
the convolution, mean, median, and both standard-deviation outputs are
non-NaN.  (With signed weights the original claim fails, and sigma-clipping
can produce NaN at nonzero effective weight when iteration empties the kept
set, which the spec itself allows as a non-error NaN.) -/
theorem c3_nan_rule (g : NDGrid) (K : Kern) (mode : PadMode) (pv : Val)
    (o : List ℕ) (nm : Bool) (P : ClipParams) (mi : Option ℕ)
    (hK : ∀ w ∈ K.weights, 0 ≤ w) :
    (effWeightAt g K mode pv o = 0 →
      convAt g K mode pv o = none
      ∧ meanAt nm g K mode pv o = none
      ∧ medianAt g K mode pv o = none
      ∧ stdAt nm g K mode pv o = (none, none)
      ∧ (clipAt P mi g K mode pv o).1 = none
      ∧ (readAt g mode pv (o.map fun i => (i : ℤ)) = none →
          (clipAt P mi g K mode pv o).2 = true))
    ∧ (effWeightAt g K mode pv o ≠ 0 →
      convAt g K mode pv o ≠ none
      ∧ meanAt nm g K mode pv o ≠ none
      ∧ medianAt g K mode pv o ≠ none
      ∧ (stdAt nm g K mode pv o).1 ≠ none
      ∧ (stdAt nm g K mode pv o).2 ≠ none) := by
  have hw : ∀ p ∈ windowPairs g K mode pv o, 0 ≤ p.2 :=
    windowPairs_weight_nonneg hK
  constructor
  · intro h0
    rw [effWeightAt] at h0
    have hnil : validPairs (windowPairs g K mode pv o) = [] :=
      valid_nil_of_effWeight_zero h0 hw
    refine ⟨?_, ?_, ?_, ?_, ?_, ?_⟩
    · simp [convAt, convReduce, hnil]
    · simp [meanAt, meanReduce, hnil, sumF_eq]
    · simp only [medianAt, medianReduce, hnil]
      rfl
    · simp [stdAt, stdReduce, hnil, sumF_eq]
    · simp only [clipAt, clipReduce, hnil, clipIter_nil]
    · intro hc
      simp only [clipAt, clipReduce, hnil, clipIter_nil, hc]
  · intro h0
    rw [effWeightAt] at h0
    have hvne : validPairs (windowPairs g K mode pv o) ≠ [] :=
      valid_ne_nil_of_effWeight_ne_zero h0
    have hWpos := validW_pos h0 hw
    refine ⟨?_, ?_, medianReduce_isSome h0 hw, (stdReduce_isSome nm h0 hw).1,
      (stdReduce_isSome nm h0 hw).2⟩
    · simp only [convAt, convReduce]
      rw [if_neg (by simpa using hvne)]
      simp
    · simp only [meanAt, meanReduce, sumF_eq]
      rw [if_neg (by linarith)]
      simp

set_option maxRecDepth 10000 in
unseal Rat.add Rat.mul Rat.inv Rat.sub in
/-- C3 (counterexample): effective weight zero does not force a NaN output.
On the one-cell data 5 with the 1-D kernel of weights 1, -1, 0 under
constant-0 borders, the window samples 0, 5, 0 are all non-NaN, the effective
weight is 1 - 1 + 0 = 0, yet the convolution output is -5, not NaN. -/
theorem c3_counterexample :
    effWeightAt gC3 kC3 .constant (some 0) [0] = 0
    ∧ convAt gC3 kC3 .constant (some 0) [0] = some (-5)
    ∧ convAt gC3 kC3 .constant (some 0) [0] ≠ none := by
  refine ⟨by decide, by decide, by decide⟩

set_option maxRecDepth 10000 in
unseal Rat.add Rat.mul Rat.inv Rat.sub in
/-- C3 (witness): on a one-cell grid with the all-ones size-1 kernel the
effective weight is nonzero and the reducer outputs are all non-NaN. -/
theorem c3_witness :
    (∀ w ∈ kW1.weights, 0 ≤ w)
    ∧ (convAt gC3 kW1 .constant (some 0) [0] ≠ none
       ∧ meanAt false gC3 kW1 .constant (some 0) [0] ≠ none
       ∧ medianAt gC3 kW1 .constant (some 0) [0] ≠ none
       ∧ (stdAt false gC3 kW1 .constant (some 0) [0]).1 ≠ none
       ∧ (stdAt false gC3 kW1 .constant (some 0) [0]).2 ≠ none) :=
  ⟨by decide,
   (c3_nan_rule gC3 kW1 .constant (some 0) [0] false ⟨.mean, some 3, some 3⟩
     (some 5) (by decide)).2 (by decide)⟩

end RSliding




